import Mathlib

/-!
Verification of the staffing-management backend (users, kitchen/shop sites,
shift rosters, derived availability, audit histories, notifications).

The definitions below are a shallow embedding of the source controllers and
models.  Document ids are modelled as `Nat`; the Mongo collections are lists
of records inside a single `Store`; a controller operation is a pure function
from store and input to either an error (the transaction aborted, no writes)
or the committed store.  Mongoose `save()` runs the user pre-save hook that
recomputes `isAvailable`; raw `updateMany` / `bulkWrite` updates do not.
Notifications created after `commitTransaction` are returned separately as
pending effects, not written into the committed store.
-/

/-- AvailabilityStatus enum from utils/enums.js. -/
inductive AvailabilityStatus
  | available
  | unavailable
deriving DecidableEq, Repr

/-- ActionType enum from utils/enums.js. -/
inductive ActionType
  | assignedToKitchen
  | unassignedFromKitchen
  | assignedToShop
  | unassignedFromShop
  | availabilityUpdated
deriving DecidableEq, Repr

/-- ShiftType enum from utils/enums.js. -/
inductive ShiftType
  | morning
  | afternoon
  | night
  | both
deriving DecidableEq, Repr

/-- All shift types; stands for iterating the keys of a site `teams` map. -/
def ShiftType.all : List ShiftType :=
  [ShiftType.morning, ShiftType.afternoon, ShiftType.night, ShiftType.both]

theorem ShiftType.mem_all (t : ShiftType) : t ∈ ShiftType.all := by
  cases t <;> simp [ShiftType.all]

/-- The per-shift team rosters of a site (`teams` map in the Kitchen/Shop
schemas), one ordered list of user ids per shift type. -/
structure Teams where
  morning : List Nat
  afternoon : List Nat
  night : List Nat
  both : List Nat
deriving DecidableEq, Repr

/-- Read `teams.get(shiftType)`: roster of one shift (absent key reads as empty). -/
def Teams.get (t : Teams) : ShiftType → List Nat
  | ShiftType.morning => t.morning
  | ShiftType.afternoon => t.afternoon
  | ShiftType.night => t.night
  | ShiftType.both => t.both

/-- Write `teams.set(shiftType, roster)`. -/
def Teams.set (t : Teams) (st : ShiftType) (l : List Nat) : Teams :=
  match st with
  | ShiftType.morning => { t with morning := l }
  | ShiftType.afternoon => { t with afternoon := l }
  | ShiftType.night => { t with night := l }
  | ShiftType.both => { t with both := l }

theorem Teams.get_set_self (t : Teams) (st : ShiftType) (l : List Nat) :
    (t.set st l).get st = l := by
  cases st <;> rfl

theorem Teams.set_get_self (t : Teams) (st : ShiftType) :
    t.set st (t.get st) = t := by
  cases st <;> rfl

/-- A user document (models/User.js); fields not touched by the availability
workflow (credentials, visa data, salary) are omitted.  `availabilityHistory`
and `history` hold ids of history documents, as in the schema. -/
structure UserRec where
  id : Nat
  manualAvailability : Option AvailabilityStatus
  kitchenId : Option Nat
  shopId : Option Nat
  isAvailable : Bool
  availabilityHistory : List Nat
  history : List Nat
deriving DecidableEq, Repr

/-- A kitchen or shop document (models/Kitchen.js and the shop schema). -/
structure SiteRec where
  id : Nat
  operatingShifts : List ShiftType
  teams : Teams
  isDeleted : Bool
deriving DecidableEq, Repr

/-- An AvailabilityHistory document. -/
structure AvailEntry where
  user : Nat
  status : AvailabilityStatus
  reason : String
deriving DecidableEq, Repr

/-- A UserHistory (action history) document. -/
structure ActionEntry where
  user : Nat
  action : ActionType
deriving DecidableEq, Repr

/-- A Notification document (models/Notification.js). -/
structure NotifRec where
  id : Nat
  userId : Nat
  message : String
  isRead : Bool
deriving DecidableEq, Repr

/-- A notification created after the transaction committed (fire-and-forget
`sendAvailabilityNotification` calls issued without the session). -/
structure PendingNotif where
  userId : Nat
  message : String
deriving DecidableEq, Repr

/-- The document store: one list per collection. -/
structure Store where
  users : List UserRec
  kitchens : List SiteRec
  shops : List SiteRec
  availabilityHistories : List AvailEntry
  userHistories : List ActionEntry
  notifications : List NotifRec
deriving DecidableEq, Repr

/-- Errors surfaced by a controller; the transaction is aborted in each case. -/
inductive ApiError
  | badRequest (msg : String)
  | notFound (msg : String)
  | internal (msg : String)
deriving DecidableEq, Repr

/-- Lookup `Model.findById` on a collection keyed by `f`. -/
def findBy (f : α → Nat) : List α → Nat → Option α
  | [], _ => none
  | a :: l, i => if f a = i then some a else findBy f l i

/-- An `updateOne`-style replacement: every document whose key equals the key of
`a` is replaced by `a`. -/
def replaceBy (f : α → Nat) (l : List α) (a : α) : List α :=
  l.map (fun v => if f v = f a then a else v)

/-- Well-formed collection: document keys are pairwise distinct. -/
abbrev NoDupKeys (f : α → Nat) (l : List α) : Prop :=
  (l.map f).Nodup

theorem findBy_eq_none (f : α → Nat) (l : List α) (i : Nat)
    (h : ∀ a ∈ l, f a ≠ i) : findBy f l i = none := by
  induction l with
  | nil => rfl
  | cons a l ih =>
    simp only [findBy]
    rw [if_neg (h a (by simp))]
    exact ih (fun b hb => h b (by simp [hb]))

theorem findBy_eq_key (f : α → Nat) (l : List α) (i : Nat) (a : α)
    (h : findBy f l i = some a) : f a = i := by
  induction l with
  | nil => simp [findBy] at h
  | cons b l ih =>
    simp only [findBy] at h
    by_cases hb : f b = i
    · rw [if_pos hb] at h
      cases h
      exact hb
    · rw [if_neg hb] at h
      exact ih h

theorem findBy_mem (f : α → Nat) (l : List α) (i : Nat) (a : α)
    (h : findBy f l i = some a) : a ∈ l := by
  induction l with
  | nil => simp [findBy] at h
  | cons b l ih =>
    simp only [findBy] at h
    by_cases hb : f b = i
    · rw [if_pos hb] at h
      cases h
      simp
    · rw [if_neg hb] at h
      exact List.mem_cons_of_mem _ (ih h)

theorem findBy_of_mem (f : α → Nat) (l : List α) (a : α)
    (hnd : NoDupKeys f l) (ha : a ∈ l) : findBy f l (f a) = some a := by
  induction l with
  | nil => simp at ha
  | cons b l ih =>
    simp only [NoDupKeys, List.map_cons, List.nodup_cons] at hnd
    rcases List.mem_cons.mp ha with rfl | ha'
    · simp [findBy]
    · have hb : f b ≠ f a := by
        intro hcontra
        exact hnd.1 (hcontra ▸ List.mem_map_of_mem f ha')
      simp only [findBy]
      rw [if_neg hb]
      exact ih hnd.2 ha'

theorem replaceBy_map_keys (f : α → Nat) (l : List α) (a : α) :
    (replaceBy f l a).map f = l.map f := by
  induction l with
  | nil => rfl
  | cons b l ih =>
    simp only [replaceBy, List.map_cons] at ih ⊢
    by_cases hb : f b = f a
    · rw [if_pos hb, ih, hb]
    · rw [if_neg hb, ih]

theorem NoDupKeys.replaceBy (f : α → Nat) (l : List α) (a : α)
    (h : NoDupKeys f l) : NoDupKeys f (replaceBy f l a) := by
  unfold NoDupKeys
  rw [replaceBy_map_keys]
  exact h

theorem replaceBy_length (f : α → Nat) (l : List α) (a : α) :
    (replaceBy f l a).length = l.length := by
  simp [replaceBy]

theorem findBy_replaceBy_self (f : α → Nat) (l : List α) (a b : α)
    (h : findBy f l (f a) = some b) :
    findBy f (replaceBy f l a) (f a) = some a := by
  induction l with
  | nil => simp [findBy] at h
  | cons c l ih =>
    simp only [findBy, replaceBy, List.map_cons] at h ⊢
    by_cases hc : f c = f a
    · rw [if_pos hc]
      simp [findBy]
    · rw [if_neg hc]
      rw [if_neg hc] at h
      simpa [findBy, hc] using ih h

theorem findBy_replaceBy_ne (f : α → Nat) (l : List α) (a : α) (i : Nat)
    (h : i ≠ f a) : findBy f (replaceBy f l a) i = findBy f l i := by
  induction l with
  | nil => rfl
  | cons c l ih =>
    simp only [replaceBy, List.map_cons, findBy]
    by_cases hc : f c = f a
    · rw [if_pos hc, if_neg (fun hcontra => h hcontra.symm),
        if_neg (fun hcontra => h (hc ▸ hcontra.symm))]
      exact ih
    · rw [if_neg hc]
      by_cases hci : f c = i
      · rw [if_pos hci, if_pos hci]
      · rw [if_neg hci, if_neg hci]
        exact ih

theorem replaceBy_of_no_key (f : α → Nat) (l : List α) (a : α)
    (h : ∀ b ∈ l, f b ≠ f a) : replaceBy f l a = l := by
  induction l with
  | nil => rfl
  | cons b l ih =>
    simp only [replaceBy, List.map_cons]
    rw [if_neg (h b (by simp))]
    have := ih (fun c hc => h c (by simp [hc]))
    simp only [replaceBy] at this
    rw [this]

theorem replaceBy_of_find_self (f : α → Nat) (l : List α) (a : α)
    (hnd : NoDupKeys f l) (h : findBy f l (f a) = some a) :
    replaceBy f l a = l := by
  induction l with
  | nil => rfl
  | cons b l ih =>
    simp only [NoDupKeys, List.map_cons, List.nodup_cons] at hnd
    simp only [findBy] at h
    simp only [replaceBy, List.map_cons]
    by_cases hb : f b = f a
    · rw [if_pos hb] at h ⊢
      have hba : b = a := by injection h
      have htail : replaceBy f l b = l := by
        apply replaceBy_of_no_key
        intro c hc hcontra
        exact hnd.1 (hcontra ▸ List.mem_map_of_mem f hc)
      simp only [← hba]
      simpa [replaceBy] using htail
    · rw [if_neg hb] at h ⊢
      have := ih hnd.2 h
      simp only [replaceBy] at this
      rw [this]

/-- The `computedIsAvailable` virtual of the User schema (models/User.js):
manual Unavailable wins, then any site assignment, else available. -/
def computedIsAvailable (manualAvailability : Option AvailabilityStatus)
    (kitchenId shopId : Option Nat) : Bool :=
  if manualAvailability = some AvailabilityStatus.unavailable then
    false
  else if kitchenId.isSome || shopId.isSome then
    false
  else
    true

/-- The availability contract as the specification words it, rule by rule:
1. manual override Unavailable gives false; 2. else a set kitchen or shop
reference gives false; 3. else true. -/
def specComputeAvailability (manualOverride : Option AvailabilityStatus)
    (kitchenRef shopRef : Option Nat) : Bool :=
  if manualOverride = some AvailabilityStatus.unavailable then
    false
  else if kitchenRef ≠ none ∨ shopRef ≠ none then
    false
  else
    true

/-- User pre-save hook (models/User.js): recompute `isAvailable` from the
document about to be saved. -/
def applyPreSave (u : UserRec) : UserRec :=
  { u with isAvailable := computedIsAvailable u.manualAvailability u.kitchenId u.shopId }

/-- Lookup `User.findById`. -/
def findUser (s : Store) (userId : Nat) : Option UserRec :=
  findBy (fun u => u.id) s.users userId

/-- Lookup `Shop.findById`. -/
def findShop (s : Store) (shopId : Nat) : Option SiteRec :=
  findBy (fun sh => sh.id) s.shops shopId

/-- Lookup `Kitchen.findById`. -/
def findKitchen (s : Store) (kitchenId : Nat) : Option SiteRec :=
  findBy (fun k => k.id) s.kitchens kitchenId

/-- Persist `user.save({ session })`: runs the pre-save hook, then writes the
document back by id. -/
def saveUser (s : Store) (u : UserRec) : Store :=
  { s with users := replaceBy (fun v => v.id) s.users (applyPreSave u) }

/-- Raw user write (`bulkWrite` / `updateMany`): no pre-save hook runs. -/
def rawWriteUser (s : Store) (u : UserRec) : Store :=
  { s with users := replaceBy (fun v => v.id) s.users u }

/-- Persist `shop.save({ session })`. -/
def saveShop (s : Store) (sh : SiteRec) : Store :=
  { s with shops := replaceBy (fun v => v.id) s.shops sh }

/-- Persist `kitchen.save({ session })`. -/
def saveKitchen (s : Store) (k : SiteRec) : Store :=
  { s with kitchens := replaceBy (fun v => v.id) s.kitchens k }

/-- JS `reason || default`: empty string and missing value both fall back. -/
def reasonOr (reason : Option String) (dflt : String) : String :=
  match reason with
  | none => dflt
  | some r => if r = "" then dflt else r

/-- Message building in `sendAvailabilityNotification`
(notificationController): switch over the action-type string. -/
def availabilityMessage (user : UserRec) (isAvailable : Bool)
    (reason : Option String) (actionType : String) : String :=
  let actionDescription :=
    if actionType = "Assignment" then
      "You have been " ++ (if isAvailable then "assigned to" else "unassigned from")
        ++ " a "
        ++ (if user.kitchenId.isSome then "kitchen"
            else if user.shopId.isSome then "shop" else "role")
        ++ "."
    else if actionType = "ManualUpdate" then
      "Your availability has been "
        ++ (if isAvailable then "updated to Available" else "updated to Unavailable")
        ++ "."
    else
      "Your availability status has been updated."
  actionDescription ++ " Reason: " ++ reasonOr reason "No specific reason provided."

/-- The notifier `sendAvailabilityNotification(user, isAvailable, reason, actionType,
session)`: creates a Notification document inside the transaction. -/
def sendAvailabilityNotification (s : Store) (user : UserRec) (isAvailable : Bool)
    (reason : Option String) (actionType : String) : Store :=
  { s with notifications := s.notifications ++
      [{ id := s.notifications.length
         userId := user.id
         message := availabilityMessage user isAvailable reason actionType
         isRead := false }] }

/-- A `sendAvailabilityNotification` issued after `commitTransaction`, without
the session: a pending fire-and-forget effect, not a committed write. -/
def pendingNotification (user : UserRec) (isAvailable : Bool)
    (reason : Option String) (actionType : String) : PendingNotif :=
  { userId := user.id
    message := availabilityMessage user isAvailable reason actionType }

/-- Claim C1: for every combination of manual override, kitchen reference and
shop reference, `computedIsAvailable` returns exactly the 3-rule precedence
of the specification. -/
theorem computedIsAvailable_matches_three_rule_precedence
    (m : Option AvailabilityStatus) (k sh : Option Nat) :
    computedIsAvailable m k sh = specComputeAvailability m k sh := by
  unfold computedIsAvailable specComputeAvailability
  by_cases hm : m = some AvailabilityStatus.unavailable
  · rw [if_pos hm, if_pos hm]
  · rw [if_neg hm, if_neg hm]
    cases k <;> cases sh <;> simp

/-- Helper `unassignUserFromShop(userId, shopId, shiftType, session)`
(shopController): clears the user shop reference only when no other shift of
this shop still lists the user, writes one availability-history and one
action-history document, and saves the user.  A missing user or shop document
makes the transaction abort with an internal error. -/
def unassignUserFromShop (s : Store) (userId shopId : Nat) (shiftType : ShiftType) :
    Except ApiError (Store × UserRec) :=
  match findUser s userId with
  | none => Except.error (ApiError.internal "user not found")
  | some user =>
    match findShop s shopId with
    | none => Except.error (ApiError.internal "shop not found")
    | some shop =>
      let isUserAssignedToOtherShifts :=
        ShiftType.all.any (fun shift =>
          shift ≠ shiftType && (shop.teams.get shift).contains userId)
      let user1 :=
        if !isUserAssignedToOtherShifts then { user with shopId := none } else user
      let updatedIsAvailable :=
        computedIsAvailable user1.manualAvailability user1.kitchenId user1.shopId
      let s1 := { s with availabilityHistories := s.availabilityHistories ++
        [({ user := user.id
            status := if updatedIsAvailable then AvailabilityStatus.available
                      else AvailabilityStatus.unavailable
            reason := "Unassigned from shift" } : AvailEntry)] }
      let s2 := { s1 with userHistories := s1.userHistories ++
        [({ user := user.id, action := ActionType.unassignedFromShop } : ActionEntry)] }
      Except.ok (saveUser s2 user1, applyPreSave user1)

/-- Helper `assignUserToShop(userId, shopId, session)` (shopController): sets the
shop reference unconditionally (no availability check, no clearing of a
kitchen reference), writes the two history documents and saves the user. -/
def assignUserToShop (s : Store) (userId shopId : Nat) :
    Except ApiError (Store × UserRec) :=
  match findUser s userId with
  | none => Except.error (ApiError.internal "user not found")
  | some user =>
    let user1 := { user with shopId := some shopId }
    let updatedIsAvailable :=
      computedIsAvailable user1.manualAvailability user1.kitchenId user1.shopId
    let s1 := { s with availabilityHistories := s.availabilityHistories ++
      [({ user := user.id
          status := if updatedIsAvailable then AvailabilityStatus.available
                    else AvailabilityStatus.unavailable
          reason := "Assigned to shop shift" } : AvailEntry)] }
    let s2 := { s1 with userHistories := s1.userHistories ++
      [({ user := user.id, action := ActionType.assignedToShop } : ActionEntry)] }
    Except.ok (saveUser s2 user1, applyPreSave user1)

/-- Sequential run of `unassignUserFromShop` over the ids to unassign
(`Promise.all(usersToUnset.map(...))` inside one session). -/
def unassignManyFromShop (s : Store) (ids : List Nat) (shopId : Nat)
    (shiftType : ShiftType) : Except ApiError (Store × List UserRec) :=
  match ids with
  | [] => Except.ok (s, [])
  | id :: rest =>
    match unassignUserFromShop s id shopId shiftType with
    | Except.error e => Except.error e
    | Except.ok (s1, u) =>
      match unassignManyFromShop s1 rest shopId shiftType with
      | Except.error e => Except.error e
      | Except.ok (s2, us) => Except.ok (s2, u :: us)

/-- Sequential run of `assignUserToShop` over the ids to assign. -/
def assignManyToShop (s : Store) (ids : List Nat) (shopId : Nat) :
    Except ApiError (Store × List UserRec) :=
  match ids with
  | [] => Except.ok (s, [])
  | id :: rest =>
    match assignUserToShop s id shopId with
    | Except.error e => Except.error e
    | Except.ok (s1, u) =>
      match assignManyToShop s1 rest shopId with
      | Except.error e => Except.error e
      | Except.ok (s2, us) => Except.ok (s2, u :: us)

/-- Controller `assignUsersToShopShift` (shopController): replaces the roster of one
shop shift with the desired user-id list.  Splits the ids into the current
minus desired (to unassign) and desired minus current (to assign), runs the
per-user helpers inside the transaction, writes the roster and commits; the
per-user notifications are sent only after the commit, without the session,
and are returned here as pending effects. -/
def assignUsersToShopShift (s : Store) (shopId : Nat) (userIds : List Nat)
    (shiftType : ShiftType) : Except ApiError (Store × List PendingNotif) :=
  match findShop s shopId with
  | none => Except.error (ApiError.notFound "Shop not found or has been deleted")
  | some shop =>
    if shop.isDeleted then
      Except.error (ApiError.notFound "Shop not found or has been deleted")
    else
      let currentUserIds := shop.teams.get shiftType
      let usersToUnset := currentUserIds.filter (fun id => !userIds.contains id)
      let usersToSet := userIds.filter (fun id => !currentUserIds.contains id)
      match unassignManyFromShop s usersToUnset shopId shiftType with
      | Except.error e => Except.error e
      | Except.ok (s1, unassignResults) =>
        match assignManyToShop s1 usersToSet shopId with
        | Except.error e => Except.error e
        | Except.ok (s2, assignResults) =>
          let s3 := saveShop s2 { shop with teams := shop.teams.set shiftType userIds }
          Except.ok (s3,
            unassignResults.map (fun u =>
              pendingNotification u true (some "Unassigned from shop shift") "Unassignment")
            ++ assignResults.map (fun u =>
              pendingNotification u true (some "Assigned to shop shift") "Assignment"))

/-- Remove the first occurrence of a user id from every shift roster
(`team.indexOf` / `team.splice(index, 1)` in `handleUserUnavailability`). -/
def Teams.eraseUser (t : Teams) (uid : Nat) : Teams :=
  { morning := t.morning.erase uid
    afternoon := t.afternoon.erase uid
    night := t.night.erase uid
    both := t.both.erase uid }

/-- Keep only roster entries satisfying `p` in every shift
(`shop.teams.forEach(... team.filter ...)` in `deleteShop`). -/
def Teams.filterAll (t : Teams) (p : Nat → Bool) : Teams :=
  { morning := t.morning.filter p
    afternoon := t.afternoon.filter p
    night := t.night.filter p
    both := t.both.filter p }

/-- One iteration of the `userUpdates` map in `unassignUsersFromShopBatch`
(shopController, shop-deletion cascade): clear the shop reference in memory,
recompute availability via `computedIsAvailable`, save the two history
documents, and queue the raw `bulkWrite` update (`$unset shopId`,
`$set isAvailable`, `$push` both history ids) — no pre-save hook runs. -/
def shopDeletionUnassignStep (acc : Store) (u : UserRec) : Store :=
  let u1 := { u with shopId := none }
  let updatedIsAvailable :=
    computedIsAvailable u1.manualAvailability u1.kitchenId u1.shopId
  let availId := acc.availabilityHistories.length
  let acc1 := { acc with availabilityHistories := acc.availabilityHistories ++
    [({ user := u.id
        status := if updatedIsAvailable then AvailabilityStatus.available
                  else AvailabilityStatus.unavailable
        reason := "Unassigned due to shop deletion" } : AvailEntry)] }
  let histId := acc1.userHistories.length
  let acc2 := { acc1 with userHistories := acc1.userHistories ++
    [({ user := u.id, action := ActionType.unassignedFromShop } : ActionEntry)] }
  rawWriteUser acc2
    { u1 with
      isAvailable := updatedIsAvailable
      availabilityHistory := u.availabilityHistory ++ [availId]
      history := u.history ++ [histId] }

/-- The per-user updates of `unassignUsersFromShopBatch`, run in order. -/
def shopDeletionBatchUpdate : Store → List UserRec → Store
  | s, [] => s
  | s, u :: rest => shopDeletionBatchUpdate (shopDeletionUnassignStep s u) rest

/-- The notification loop of `unassignUsersFromShopBatch`: one
`sendAvailabilityNotification` per affected user, inside the session (the
in-memory user documents already have the shop reference cleared). -/
def shopDeletionBatchNotify : Store → List UserRec → Store
  | s, [] => s
  | s, u :: rest =>
    shopDeletionBatchNotify
      (sendAvailabilityNotification s { u with shopId := none } true
        (some "Unassigned due to shop deletion") "Assignment") rest

/-- Batch `unassignUsersFromShopBatch(usersAssigned, shop, session)`. -/
def unassignUsersFromShopBatch (s : Store) (usersAssigned : List UserRec) : Store :=
  shopDeletionBatchNotify (shopDeletionBatchUpdate s usersAssigned) usersAssigned

/-- Controller `deleteShop` (shopController): soft-delete.  Finds the shop, batch-
unassigns every user whose `shopId` references it, removes those users from
all rosters, marks the shop `isDeleted` and saves it — all in one session. -/
def deleteShop (s : Store) (shopId : Nat) : Except ApiError Store :=
  match findShop s shopId with
  | none => Except.error (ApiError.notFound "Shop not found")
  | some shop =>
    let usersAssigned := s.users.filter (fun u => u.shopId = some shopId)
    let s1 := unassignUsersFromShopBatch s usersAssigned
    let shop1 :=
      { shop with
        teams := shop.teams.filterAll
          (fun uid => !(usersAssigned.any (fun u => u.id = uid)))
        isDeleted := true }
    Except.ok (saveShop s1 shop1)

/-- Helper `handleUserUnavailability(user, session)` (userController): remove the
user from every roster of the referenced kitchen and shop, clear both site
references, and save the user. -/
def handleUserUnavailability (s : Store) (user : UserRec) : Store × UserRec :=
  let step1 : Store × UserRec :=
    match user.kitchenId with
    | some kid =>
      let s' :=
        match findKitchen s kid with
        | some kitchen => saveKitchen s { kitchen with teams := kitchen.teams.eraseUser user.id }
        | none => s
      (s', { user with kitchenId := none })
    | none => (s, user)
  let step2 : Store × UserRec :=
    match step1.2.shopId with
    | some sid =>
      let s' :=
        match findShop step1.1 sid with
        | some shop => saveShop step1.1 { shop with teams := shop.teams.eraseUser step1.2.id }
        | none => step1.1
      (s', { step1.2 with shopId := none })
    | none => step1
  (saveUser step2.1 step2.2, applyPreSave step2.2)

/-- Controller `updateUserAvailability` (userController): set or clear the manual
override, append one availability-history and one action-history document
(also pushing their ids onto the user document), save the user, cascade via
`handleUserUnavailability` when the user became unavailable, and send one
notification — all inside one transaction. -/
def updateUserAvailability (s : Store) (userId : Nat) (isAvailable : Bool)
    (reason : Option String) : Except ApiError Store :=
  match findUser s userId with
  | none => Except.error (ApiError.notFound "User not found")
  | some user =>
    let user1 :=
      { user with manualAvailability :=
          if isAvailable then none else some AvailabilityStatus.unavailable }
    let status1 := computedIsAvailable user1.manualAvailability user1.kitchenId user1.shopId
    let availId := s.availabilityHistories.length
    let s1 := { s with availabilityHistories := s.availabilityHistories ++
      [({ user := userId
          status := if status1 then AvailabilityStatus.available
                    else AvailabilityStatus.unavailable
          reason := reasonOr reason "Status updated by admin" } : AvailEntry)] }
    let histId := s1.userHistories.length
    let s2 := { s1 with userHistories := s1.userHistories ++
      [({ user := userId, action := ActionType.availabilityUpdated } : ActionEntry)] }
    let user2 :=
      { user1 with
        availabilityHistory := user1.availabilityHistory ++ [availId]
        history := user1.history ++ [histId] }
    let s3 := saveUser s2 user2
    if computedIsAvailable user2.manualAvailability user2.kitchenId user2.shopId then
      Except.ok (sendAvailabilityNotification s3 user2 true reason "ManualUpdate")
    else
      let after := handleUserUnavailability s3 user2
      Except.ok (sendAvailabilityNotification after.1 after.2 false reason "ManualUpdate")

/-- Controller `markAsRead` (notification controller):
`findOneAndUpdate({ _id: notificationId, userId }, { isRead: true })` — the
document is updated only when both the id and the owning user match;
otherwise the handler answers NotFound and writes nothing. -/
def markAsRead (s : Store) (notificationId userId : Nat) :
    Store × Except ApiError NotifRec :=
  match s.notifications.find?
      (fun n => n.id = notificationId && n.userId = userId) with
  | none => (s, Except.error (ApiError.notFound "Notification not found"))
  | some n =>
    let n1 := { n with isRead := true }
    ({ s with notifications := replaceBy (fun v => v.id) s.notifications n1 },
      Except.ok n1)

namespace Legacy

/-- The earlier `assignUsersToShopShift` variant (same repository, older
shop controller): reconciles the roster with two raw `updateMany` writes —
`$unset shopId` for removed users and `{ shopId }` for added users — without
recomputing `isAvailable`, without history documents and without
notifications. -/
def assignUsersToShopShift (s : Store) (shopId : Nat) (userIds : List Nat)
    (shiftType : ShiftType) : Except ApiError Store :=
  match findShop s shopId with
  | none => Except.error (ApiError.notFound "Shop not found")
  | some shop =>
    let currentUserIds := shop.teams.get shiftType
    let usersToUnset := currentUserIds.filter (fun id => !userIds.contains id)
    let usersToSet := userIds.filter (fun id => !currentUserIds.contains id)
    let s1 :=
      if usersToUnset.length > 0 then
        { s with users := s.users.map (fun u =>
            if usersToUnset.contains u.id then { u with shopId := none } else u) }
      else s
    let s2 :=
      if usersToSet.length > 0 then
        { s1 with users := s1.users.map (fun u =>
            if usersToSet.contains u.id then { u with shopId := some shop.id } else u) }
      else s1
    Except.ok (saveShop s2 { shop with teams := shop.teams.set shiftType userIds })

end Legacy

theorem unassignUserFromShop_ok {s : Store} {userId shopId : Nat}
    {st : ShiftType} {s' : Store} {u : UserRec}
    (h : unassignUserFromShop s userId shopId st = Except.ok (s', u)) :
    s'.notifications = s.notifications ∧ s'.shops = s.shops ∧
    s'.kitchens = s.kitchens ∧
    s'.availabilityHistories.length = s.availabilityHistories.length + 1 ∧
    s'.userHistories.length = s.userHistories.length + 1 ∧
    s'.users.length = s.users.length := by
  unfold unassignUserFromShop at h
  cases hu : findUser s userId with
  | none => rw [hu] at h; cases h
  | some user =>
    rw [hu] at h
    cases hsh : findShop s shopId with
    | none => rw [hsh] at h; cases h
    | some shop =>
      rw [hsh] at h
      simp only [Except.ok.injEq, Prod.mk.injEq] at h
      obtain ⟨h1, h2⟩ := h
      subst h1
      refine ⟨rfl, rfl, rfl, ?_, ?_, ?_⟩ <;>
        simp [saveUser, replaceBy_length, List.length_append]

theorem assignUserToShop_ok {s : Store} {userId shopId : Nat}
    {s' : Store} {u : UserRec}
    (h : assignUserToShop s userId shopId = Except.ok (s', u)) :
    s'.notifications = s.notifications ∧ s'.shops = s.shops ∧
    s'.kitchens = s.kitchens ∧
    s'.availabilityHistories.length = s.availabilityHistories.length + 1 ∧
    s'.userHistories.length = s.userHistories.length + 1 ∧
    s'.users.length = s.users.length := by
  unfold assignUserToShop at h
  cases hu : findUser s userId with
  | none => rw [hu] at h; cases h
  | some user =>
    rw [hu] at h
    simp only [Except.ok.injEq, Prod.mk.injEq] at h
    obtain ⟨h1, h2⟩ := h
    subst h1
    refine ⟨rfl, rfl, rfl, ?_, ?_, ?_⟩ <;>
      simp [saveUser, replaceBy_length, List.length_append]

theorem unassignManyFromShop_ok {shopId : Nat} {st : ShiftType} :
    ∀ {ids : List Nat} {s s' : Store} {us : List UserRec},
    unassignManyFromShop s ids shopId st = Except.ok (s', us) →
    s'.notifications = s.notifications ∧ s'.shops = s.shops ∧
    s'.kitchens = s.kitchens ∧
    s'.availabilityHistories.length = s.availabilityHistories.length + ids.length ∧
    s'.userHistories.length = s.userHistories.length + ids.length ∧
    s'.users.length = s.users.length ∧ us.length = ids.length := by
  intro ids
  induction ids with
  | nil =>
    intro s s' us h
    simp only [unassignManyFromShop, Except.ok.injEq, Prod.mk.injEq] at h
    obtain ⟨h1, h2⟩ := h
    subst h1
    subst h2
    simp
  | cons id rest ih =>
    intro s s' us h
    simp only [unassignManyFromShop] at h
    split at h
    · cases h
    · rename_i p sa ua heq1
      split at h
      · cases h
      · rename_i q sb ub heq2
        simp only [Except.ok.injEq, Prod.mk.injEq] at h
        obtain ⟨h3, h4⟩ := h
        subst h3
        obtain ⟨n1, s1, k1, a1, u1, l1⟩ := unassignUserFromShop_ok heq1
        obtain ⟨n2, s2, k2, a2, u2, l2, r2⟩ := ih heq2
        refine ⟨n2.trans n1, s2.trans s1, k2.trans k1, ?_, ?_, l2.trans l1, ?_⟩
        · simp only [List.length_cons]; omega
        · simp only [List.length_cons]; omega
        · subst h4; simp [r2]

theorem assignManyToShop_ok {shopId : Nat} :
    ∀ {ids : List Nat} {s s' : Store} {us : List UserRec},
    assignManyToShop s ids shopId = Except.ok (s', us) →
    s'.notifications = s.notifications ∧ s'.shops = s.shops ∧
    s'.kitchens = s.kitchens ∧
    s'.availabilityHistories.length = s.availabilityHistories.length + ids.length ∧
    s'.userHistories.length = s.userHistories.length + ids.length ∧
    s'.users.length = s.users.length ∧ us.length = ids.length := by
  intro ids
  induction ids with
  | nil =>
    intro s s' us h
    simp only [assignManyToShop, Except.ok.injEq, Prod.mk.injEq] at h
    obtain ⟨h1, h2⟩ := h
    subst h1
    subst h2
    simp
  | cons id rest ih =>
    intro s s' us h
    simp only [assignManyToShop] at h
    split at h
    · cases h
    · rename_i p sa ua heq1
      split at h
      · cases h
      · rename_i q sb ub heq2
        simp only [Except.ok.injEq, Prod.mk.injEq] at h
        obtain ⟨h3, h4⟩ := h
        subst h3
        obtain ⟨n1, s1, k1, a1, u1, l1⟩ := assignUserToShop_ok heq1
        obtain ⟨n2, s2, k2, a2, u2, l2, r2⟩ := ih heq2
        refine ⟨n2.trans n1, s2.trans s1, k2.trans k1, ?_, ?_, l2.trans l1, ?_⟩
        · simp only [List.length_cons]; omega
        · simp only [List.length_cons]; omega
        · subst h4; simp [r2]

theorem filter_not_contains_self (l : List Nat) :
    l.filter (fun id => !l.contains id) = [] := by
  apply List.filter_eq_nil_iff.mpr
  intro a ha
  simp [ha]

theorem saveShop_found (s : Store) (shopId : Nat) (shop : SiteRec)
    (hnd : NoDupKeys (fun v => v.id) s.shops)
    (hfind : findShop s shopId = some shop) :
    saveShop s shop = s := by
  have hkey : shop.id = shopId := findBy_eq_key _ _ _ _ hfind
  have hrep := replaceBy_of_find_self (fun v : SiteRec => v.id) s.shops shop hnd
    (by simpa [hkey] using hfind)
  unfold saveShop
  rw [hrep]

/-- Claim C8: roster assignment is idempotent — submitting the current
roster of a shift back to `assignUsersToShopShift` commits no history
entries, emits no notifications, and leaves the whole store unchanged. -/
theorem assignUsersToShopShift_idempotent
    (s : Store) (shopId : Nat) (shiftType : ShiftType) (shop : SiteRec)
    (hnd : NoDupKeys (fun v => v.id) s.shops)
    (hfind : findShop s shopId = some shop)
    (hdel : shop.isDeleted = false) :
    assignUsersToShopShift s shopId (shop.teams.get shiftType) shiftType =
      Except.ok (s, []) := by
  unfold assignUsersToShopShift
  rw [hfind]
  simp only [hdel, Bool.false_eq_true, if_false]
  rw [filter_not_contains_self]
  simp only [unassignManyFromShop, assignManyToShop]
  rw [Teams.set_get_self, ← hdel]
  have hshop : SiteRec.mk shop.id shop.operatingShifts shop.teams shop.isDeleted = shop := rfl
  rw [hshop, saveShop_found s shopId shop hnd hfind]
  simp

def shopC8 : SiteRec :=
  { id := 10
    operatingShifts := [ShiftType.morning]
    teams := { morning := [1, 2], afternoon := [], night := [], both := [] }
    isDeleted := false }

def storeC8 : Store :=
  { users :=
      [{ id := 1, manualAvailability := none, kitchenId := none, shopId := some 10,
         isAvailable := false, availabilityHistory := [], history := [] },
       { id := 2, manualAvailability := none, kitchenId := none, shopId := some 10,
         isAvailable := false, availabilityHistory := [], history := [] }]
    kitchens := []
    shops := [shopC8]
    availabilityHistories := []
    userHistories := []
    notifications := [] }

/-- Witness for C8: re-submitting the current Morning roster `[1, 2]` of
shop 10 changes nothing and creates no pending notifications. -/
theorem assignUsersToShopShift_idempotent_witness :
    assignUsersToShopShift storeC8 10 [1, 2] ShiftType.morning =
      Except.ok (storeC8, []) :=
  assignUsersToShopShift_idempotent storeC8 10 ShiftType.morning shopC8
    (by decide) (by rfl) (by rfl)

def shopC4 : SiteRec :=
  { id := 10
    operatingShifts := [ShiftType.morning]
    teams := { morning := [], afternoon := [], night := [], both := [] }
    isDeleted := false }

def userC4 : UserRec :=
  { id := 1, manualAvailability := none, kitchenId := none, shopId := none,
    isAvailable := true, availabilityHistory := [], history := [] }

def storeC4 : Store :=
  { users := [userC4]
    kitchens := []
    shops := [shopC4]
    availabilityHistories := []
    userHistories := []
    notifications := [] }

/-- Claim C4 counterexample: assigning user 1 to the Morning shift of shop 10
commits the user update, the roster replacement and the audit entries, but
the committed store holds zero notification documents — the one notification
for the change is created only after `commitTransaction`, outside the
transaction.  So it is false that all persisted effects, the per-user
notifications included, commit together in one atomic transaction. -/
theorem assignUsersToShopShift_notification_after_commit :
    (assignUsersToShopShift storeC4 10 [1] ShiftType.morning).toOption.map
        (fun p => (p.1.notifications.length,
                   (findShop p.1 10).map (fun sh => sh.teams.get ShiftType.morning),
                   p.1.availabilityHistories.length,
                   p.2.length))
      = some (0, some [1], 1, 1) := by
  rfl

/-- Claim C4 (amended): within one roster assignment, the user-record
updates, the roster replacement and the audit entries commit together in one
transaction — on any error nothing is committed — but the per-user
notifications are not part of that transaction: the committed store keeps
its notification collection unchanged, and exactly one pending notification
per changed user is issued after the commit. -/
theorem assignUsersToShopShift_txn_boundary
    (s : Store) (shopId : Nat) (userIds : List Nat) (st : ShiftType)
    (shop : SiteRec) (hfind : findShop s shopId = some shop)
    (s' : Store) (posts : List PendingNotif)
    (h : assignUsersToShopShift s shopId userIds st = Except.ok (s', posts)) :
    s'.notifications = s.notifications ∧
    (∃ sh', findShop s' shopId = some sh' ∧ sh'.teams.get st = userIds) ∧
    s'.availabilityHistories.length = s.availabilityHistories.length
      + ((shop.teams.get st).filter (fun id => !userIds.contains id)).length
      + (userIds.filter (fun id => !(shop.teams.get st).contains id)).length ∧
    s'.userHistories.length = s.userHistories.length
      + ((shop.teams.get st).filter (fun id => !userIds.contains id)).length
      + (userIds.filter (fun id => !(shop.teams.get st).contains id)).length ∧
    posts.length = ((shop.teams.get st).filter (fun id => !userIds.contains id)).length
      + (userIds.filter (fun id => !(shop.teams.get st).contains id)).length := by
  unfold assignUsersToShopShift at h
  simp only [hfind] at h
  by_cases hdel : shop.isDeleted
  · rw [if_pos hdel] at h; cases h
  · rw [if_neg hdel] at h
    split at h
    · cases h
    · rename_i p sa us1 heq1
      split at h
      · cases h
      · rename_i q sb us2 heq2
        simp only [Except.ok.injEq, Prod.mk.injEq] at h
        obtain ⟨h1, h2⟩ := h
        subst h1
        obtain ⟨n1, sh1, k1, a1, uh1, l1, r1⟩ := unassignManyFromShop_ok heq1
        obtain ⟨n2, sh2, k2, a2, uh2, l2, r2⟩ := assignManyToShop_ok heq2
        have hkey : shop.id = shopId := findBy_eq_key _ _ _ _ hfind
        refine ⟨?_, ?_, ?_, ?_, ?_⟩
        · show (saveShop sb _).notifications = s.notifications
          simpa [saveShop] using n2.trans n1
        · refine ⟨{ shop with teams := shop.teams.set st userIds }, ?_, Teams.get_set_self _ _ _⟩
          show findBy (fun v => v.id) (replaceBy (fun v => v.id) sb.shops _) shopId = _
          have hsb : sb.shops = s.shops := sh2.trans sh1
          have : findBy (fun v : SiteRec => v.id)
              sb.shops ((fun v : SiteRec => v.id) { shop with teams := shop.teams.set st userIds }) = some shop := by
            rw [hsb]
            show findBy _ s.shops shop.id = some shop
            rw [hkey]
            exact hfind
          have hres := findBy_replaceBy_self (fun v : SiteRec => v.id) sb.shops
            { shop with teams := shop.teams.set st userIds } shop this
          rw [← hkey]
          exact hres
        · show (saveShop sb _).availabilityHistories.length = _
          simp only [saveShop]
          omega
        · show (saveShop sb _).userHistories.length = _
          simp only [saveShop]
          omega
        · subst h2
          simp only [List.length_append, List.length_map]
          omega

def resStoreC4 : Store :=
  { users :=
      [{ id := 1, manualAvailability := none, kitchenId := none, shopId := some 10,
         isAvailable := false, availabilityHistory := [], history := [] }]
    kitchens := []
    shops :=
      [{ id := 10, operatingShifts := [ShiftType.morning],
         teams := { morning := [1], afternoon := [], night := [], both := [] },
         isDeleted := false }]
    availabilityHistories :=
      [{ user := 1, status := AvailabilityStatus.unavailable,
         reason := "Assigned to shop shift" }]
    userHistories := [{ user := 1, action := ActionType.assignedToShop }]
    notifications := [] }

def postsC4 : List PendingNotif :=
  [{ userId := 1,
     message := "You have been assigned to a shop. Reason: Assigned to shop shift" }]

/-- Witness for the amended C4: the concrete roster assignment of user 1 to
shop 10 commits the roster and audit writes with an unchanged notification
collection, and one pending notification is issued after commit. -/
theorem assignUsersToShopShift_txn_boundary_witness :
    resStoreC4.notifications = storeC4.notifications ∧
    (∃ sh', findShop resStoreC4 10 = some sh' ∧
      sh'.teams.get ShiftType.morning = [1]) ∧
    resStoreC4.availabilityHistories.length = storeC4.availabilityHistories.length
      + ((shopC4.teams.get ShiftType.morning).filter
          (fun id => !([1] : List Nat).contains id)).length
      + (([1] : List Nat).filter
          (fun id => !(shopC4.teams.get ShiftType.morning).contains id)).length ∧
    resStoreC4.userHistories.length = storeC4.userHistories.length
      + ((shopC4.teams.get ShiftType.morning).filter
          (fun id => !([1] : List Nat).contains id)).length
      + (([1] : List Nat).filter
          (fun id => !(shopC4.teams.get ShiftType.morning).contains id)).length ∧
    postsC4.length = ((shopC4.teams.get ShiftType.morning).filter
          (fun id => !([1] : List Nat).contains id)).length
      + (([1] : List Nat).filter
          (fun id => !(shopC4.teams.get ShiftType.morning).contains id)).length :=
  assignUsersToShopShift_txn_boundary storeC4 10 [1] ShiftType.morning shopC4 rfl
    resStoreC4 postsC4 rfl

/-- Claim C5: when a user is removed from a shift, `unassignUserFromShop`
clears the user shop reference exactly when no other shift of the same shop
still lists the user; while some other shift still lists the user, the
reference to the shop is retained. -/
theorem unassignUserFromShop_multi_shift
    (s : Store) (uid shopId : Nat) (st : ShiftType)
    (u : UserRec) (shop : SiteRec)
    (hu : findUser s uid = some u)
    (hsh : findShop s shopId = some shop)
    (hassigned : u.shopId = some shopId) :
    ∃ s' v, unassignUserFromShop s uid shopId st = Except.ok (s', v) ∧
      findUser s' uid = some v ∧
      (v.shopId = none ↔ ∀ sh, sh ≠ st → uid ∉ shop.teams.get sh) ∧
      ((∃ sh, sh ≠ st ∧ uid ∈ shop.teams.get sh) → v.shopId = some shopId) := by
  have hukey : u.id = uid := findBy_eq_key _ _ _ _ hu
  unfold unassignUserFromShop
  simp only [hu, hsh]
  by_cases hother :
      (ShiftType.all.any (fun shift => shift ≠ st && (shop.teams.get shift).contains uid)) = true
  · rw [hother]
    simp only [Bool.not_true, Bool.false_eq_true, if_false]
    refine ⟨_, _, rfl, ?_, ?_, ?_⟩
    · show findBy (fun v => v.id) (replaceBy (fun v => v.id) _ (applyPreSave u)) uid = _
      have : findBy (fun v : UserRec => v.id) s.users
          ((fun v : UserRec => v.id) (applyPreSave u)) = some u := by
        show findBy _ s.users u.id = some u
        rw [hukey]
        exact hu
      have hres := findBy_replaceBy_self (fun v : UserRec => v.id) s.users (applyPreSave u) u this
      simpa [applyPreSave, hukey] using hres
    · obtain ⟨sh, hshmem, hcond⟩ := List.any_eq_true.mp hother
      simp only [Bool.and_eq_true, decide_eq_true_eq] at hcond
      constructor
      · intro hnone
        simp [applyPreSave, hassigned] at hnone
      · intro hall
        exact absurd (by simpa using hcond.2) (hall sh hcond.1)
    · intro _
      simpa [applyPreSave] using hassigned
  · rw [Bool.not_eq_true] at hother
    rw [hother]
    simp only [Bool.not_false, if_true]
    refine ⟨_, _, rfl, ?_, ?_, ?_⟩
    · show findBy (fun v => v.id) (replaceBy (fun v => v.id) _ (applyPreSave { u with shopId := none })) uid = _
      have : findBy (fun v : UserRec => v.id) s.users
          ((fun v : UserRec => v.id) (applyPreSave { u with shopId := none })) = some u := by
        show findBy _ s.users u.id = some u
        rw [hukey]
        exact hu
      have hres := findBy_replaceBy_self (fun v : UserRec => v.id) s.users
        (applyPreSave { u with shopId := none }) u this
      simpa [applyPreSave, hukey] using hres
    · simp only [applyPreSave]
      constructor
      · intro _ sh hne hmem
        have : (ShiftType.all.any
            (fun shift => shift ≠ st && (shop.teams.get shift).contains uid)) = true := by
          apply List.any_eq_true.mpr
          exact ⟨sh, ShiftType.mem_all sh, by
            simp only [Bool.and_eq_true, decide_eq_true_eq]
            exact ⟨hne, by simpa using hmem⟩⟩
        rw [this] at hother
        cases hother
      · intro _
        trivial
    · intro ⟨sh, hne, hmem⟩
      have : (ShiftType.all.any
          (fun shift => shift ≠ st && (shop.teams.get shift).contains uid)) = true := by
        apply List.any_eq_true.mpr
        exact ⟨sh, ShiftType.mem_all sh, by
          simp only [Bool.and_eq_true, decide_eq_true_eq]
          exact ⟨hne, by simpa using hmem⟩⟩
      rw [this] at hother
      cases hother

def shopC5 : SiteRec :=
  { id := 10
    operatingShifts := [ShiftType.morning, ShiftType.afternoon]
    teams := { morning := [7], afternoon := [7], night := [], both := [] }
    isDeleted := false }

def userC5 : UserRec :=
  { id := 7, manualAvailability := none, kitchenId := none, shopId := some 10,
    isAvailable := false, availabilityHistory := [], history := [] }

def storeC5 : Store :=
  { users := [userC5]
    kitchens := []
    shops := [shopC5]
    availabilityHistories := []
    userHistories := []
    notifications := [] }

/-- Witness for C5: user 7 holds Morning and Afternoon at shop 10; being
unassigned from Morning, the shop reference is retained because Afternoon
still lists the user. -/
theorem unassignUserFromShop_multi_shift_witness :
    ∃ s' v, unassignUserFromShop storeC5 7 10 ShiftType.morning = Except.ok (s', v) ∧
      findUser s' 7 = some v ∧
      (v.shopId = none ↔ ∀ sh, sh ≠ ShiftType.morning → 7 ∉ shopC5.teams.get sh) ∧
      ((∃ sh, sh ≠ ShiftType.morning ∧ 7 ∈ shopC5.teams.get sh) → v.shopId = some 10) :=
  unassignUserFromShop_multi_shift storeC5 7 10 ShiftType.morning userC5 shopC5
    rfl rfl rfl

def userC3 : UserRec :=
  { id := 1, manualAvailability := some AvailabilityStatus.unavailable,
    kitchenId := none, shopId := none, isAvailable := false,
    availabilityHistory := [], history := [] }

def storeC3 : Store :=
  { users := [userC3]
    kitchens := []
    shops :=
      [{ id := 10, operatingShifts := [ShiftType.morning],
         teams := { morning := [], afternoon := [], night := [], both := [] },
         isDeleted := false }]
    availabilityHistories := []
    userHistories := []
    notifications := [] }

/-- Claim C3 evaluated on the code: user 1 is unavailable per the deriver
(manual override Unavailable), yet `assignUsersToShopShift` performs no
availability check — the batch succeeds, the user record gets the shop
reference, the roster is replaced and an audit entry is committed, instead
of the whole operation failing with a Conflict and no persisted writes. -/
theorem assignUsersToShopShift_assigns_unavailable_user :
    computedIsAvailable userC3.manualAvailability userC3.kitchenId userC3.shopId = false ∧
    (assignUsersToShopShift storeC3 10 [1] ShiftType.morning).toOption.map
        (fun p => ((findUser p.1 1).map (fun v => v.shopId),
                   (findShop p.1 10).map (fun sh => sh.teams.get ShiftType.morning),
                   p.1.availabilityHistories.length))
      = some (some (some 10), some [1], 1) :=
  ⟨rfl, rfl⟩

def userC9 : UserRec :=
  { id := 2, manualAvailability := none, kitchenId := some 5, shopId := none,
    isAvailable := false, availabilityHistory := [], history := [] }

def storeC9 : Store :=
  { users := [userC9]
    kitchens :=
      [{ id := 5, operatingShifts := [ShiftType.morning],
         teams := { morning := [2], afternoon := [], night := [], both := [] },
         isDeleted := false }]
    shops :=
      [{ id := 10, operatingShifts := [ShiftType.morning],
         teams := { morning := [], afternoon := [], night := [], both := [] },
         isDeleted := false }]
    availabilityHistories := []
    userHistories := []
    notifications := [] }

/-- Claim C9 evaluated on the code: user 2 already references kitchen 5;
`assignUserToShop` (via the shop-shift batch) sets the shop reference without
clearing or checking the kitchen reference, so the committed user record
holds both `kitchenId = 5` and `shopId = 10` at once. -/
theorem assignUsersToShopShift_sets_both_site_references :
    (assignUsersToShopShift storeC9 10 [2] ShiftType.morning).toOption.bind
        (fun p => (findUser p.1 2).map (fun v => (v.kitchenId, v.shopId)))
      = some (some 5, some 10) :=
  rfl

def userC2 : UserRec :=
  { id := 1, manualAvailability := none, kitchenId := none, shopId := none,
    isAvailable := true, availabilityHistory := [], history := [] }

def storeC2 : Store :=
  { users := [userC2]
    kitchens := []
    shops :=
      [{ id := 10, operatingShifts := [ShiftType.morning],
         teams := { morning := [], afternoon := [], night := [], both := [] },
         isDeleted := false }]
    availabilityHistories := []
    userHistories := []
    notifications := [] }

/-- Claim C2 evaluated on the code: the `updateMany`-based roster variant
persists `shopId = 10` for user 1 without recomputing `isAvailable` (raw
bulk updates bypass the pre-save hook), leaving a stored record whose
`isAvailable` is `true` while the deriver over the persisted fields says
`false` — the stated invariant is violated after this persist. -/
theorem legacy_assignUsersToShopShift_breaks_isAvailable_invariant :
    (Legacy.assignUsersToShopShift storeC2 10 [1] ShiftType.morning).toOption.bind
        (fun s1 => (findUser s1 1).map
          (fun v => (v.isAvailable,
                     computedIsAvailable v.manualAvailability v.kitchenId v.shopId)))
      = some (true, false) :=
  rfl

theorem Teams.not_mem_eraseUser (t : Teams) (uid : Nat)
    (hnd : ∀ shift, (t.get shift).Nodup) :
    ∀ shift, uid ∉ (t.eraseUser uid).get shift := by
  intro shift
  have h : uid ∉ (t.get shift).erase uid := (hnd shift).not_mem_erase
  cases shift <;> simpa [Teams.eraseUser, Teams.get] using h

/-- Claim C6: marking a user who holds a site assignment manually
unavailable removes the user from every shift roster of the referenced site,
clears the site reference, appends exactly one availability-history entry
and one action-history entry, creates exactly one notification for the user
— and the whole cascade is one committed result. -/
theorem updateUserAvailability_unavailable_cascade
    (s : Store) (uid : Nat) (reason : Option String)
    (u : UserRec) (sid : Nat) (site : SiteRec)
    (hu : findUser s uid = some u)
    (hcase :
      (u.kitchenId = none ∧ u.shopId = some sid ∧ findShop s sid = some site) ∨
      (u.shopId = none ∧ u.kitchenId = some sid ∧ findKitchen s sid = some site))
    (hnd : ∀ shift, (site.teams.get shift).Nodup) :
    ∃ s', updateUserAvailability s uid false reason = Except.ok s' ∧
      s'.availabilityHistories = s.availabilityHistories ++
        [{ user := uid, status := AvailabilityStatus.unavailable,
           reason := reasonOr reason "Status updated by admin" }] ∧
      s'.userHistories = s.userHistories ++
        [{ user := uid, action := ActionType.availabilityUpdated }] ∧
      (∃ n, s'.notifications = s.notifications ++ [n] ∧ n.userId = uid) ∧
      (∃ v, findUser s' uid = some v ∧
        v.manualAvailability = some AvailabilityStatus.unavailable ∧
        v.kitchenId = none ∧ v.shopId = none ∧ v.isAvailable = false) ∧
      (∃ site', (findShop s' sid = some site' ∨ findKitchen s' sid = some site') ∧
        ∀ shift, uid ∉ site'.teams.get shift) := by
  have hukey : u.id = uid := findBy_eq_key _ _ _ _ hu
  subst hukey
  rcases hcase with ⟨hk, hs, hfs⟩ | ⟨hs, hk, hfk⟩
  · have hsitekey : site.id = sid := findBy_eq_key _ _ _ _ hfs
    subst hsitekey
    have hfs' : findBy (fun v : SiteRec => v.id) s.shops site.id = some site := hfs
    have hufind : findBy (fun v : UserRec => v.id) s.users u.id = some u := hu
    refine ⟨sendAvailabilityNotification
        (saveUser
          (saveShop
            (saveUser
              { s with
                availabilityHistories := s.availabilityHistories ++
                  [{ user := u.id, status := AvailabilityStatus.unavailable,
                     reason := reasonOr reason "Status updated by admin" }],
                userHistories := s.userHistories ++
                  [{ user := u.id, action := ActionType.availabilityUpdated }] }
              { u with
                manualAvailability := some AvailabilityStatus.unavailable,
                availabilityHistory := u.availabilityHistory ++ [s.availabilityHistories.length],
                history := u.history ++ [s.userHistories.length] })
            { site with teams := site.teams.eraseUser u.id })
          { u with
            manualAvailability := some AvailabilityStatus.unavailable,
            shopId := none,
            availabilityHistory := u.availabilityHistory ++ [s.availabilityHistories.length],
            history := u.history ++ [s.userHistories.length] })
        (applyPreSave
          { u with
            manualAvailability := some AvailabilityStatus.unavailable,
            shopId := none,
            availabilityHistory := u.availabilityHistory ++ [s.availabilityHistories.length],
            history := u.history ++ [s.userHistories.length] })
        false reason "ManualUpdate", ?_, rfl, rfl, ⟨_, rfl, rfl⟩, ?_, ?_⟩
    · simp only [updateUserAvailability, hu, handleUserUnavailability, saveUser,
        saveShop, findShop, findKitchen, computedIsAvailable, hk, hs, hfs']
      rfl
    · refine ⟨applyPreSave { u with
          manualAvailability := some AvailabilityStatus.unavailable,
          shopId := none,
          availabilityHistory := u.availabilityHistory ++ [s.availabilityHistories.length],
          history := u.history ++ [s.userHistories.length] }, ?_, rfl, hk, rfl, rfl⟩
      exact findBy_replaceBy_self (fun v : UserRec => v.id)
        (replaceBy (fun v : UserRec => v.id) s.users
          (applyPreSave { u with
            manualAvailability := some AvailabilityStatus.unavailable,
            availabilityHistory := u.availabilityHistory ++ [s.availabilityHistories.length],
            history := u.history ++ [s.userHistories.length] }))
        (applyPreSave { u with
          manualAvailability := some AvailabilityStatus.unavailable,
          shopId := none,
          availabilityHistory := u.availabilityHistory ++ [s.availabilityHistories.length],
          history := u.history ++ [s.userHistories.length] })
        (applyPreSave { u with
          manualAvailability := some AvailabilityStatus.unavailable,
          availabilityHistory := u.availabilityHistory ++ [s.availabilityHistories.length],
          history := u.history ++ [s.userHistories.length] })
        (findBy_replaceBy_self (fun v : UserRec => v.id) s.users
          (applyPreSave { u with
            manualAvailability := some AvailabilityStatus.unavailable,
            availabilityHistory := u.availabilityHistory ++ [s.availabilityHistories.length],
            history := u.history ++ [s.userHistories.length] }) u hufind)
    · refine ⟨{ site with teams := site.teams.eraseUser u.id }, Or.inl ?_, ?_⟩
      · exact findBy_replaceBy_self (fun v : SiteRec => v.id) s.shops
          { site with teams := site.teams.eraseUser u.id } site hfs'
      · exact Teams.not_mem_eraseUser site.teams u.id hnd
  · have hsitekey : site.id = sid := findBy_eq_key _ _ _ _ hfk
    subst hsitekey
    have hfk' : findBy (fun v : SiteRec => v.id) s.kitchens site.id = some site := hfk
    have hufind : findBy (fun v : UserRec => v.id) s.users u.id = some u := hu
    refine ⟨sendAvailabilityNotification
        (saveUser
          (saveKitchen
            (saveUser
              { s with
                availabilityHistories := s.availabilityHistories ++
                  [{ user := u.id, status := AvailabilityStatus.unavailable,
                     reason := reasonOr reason "Status updated by admin" }],
                userHistories := s.userHistories ++
                  [{ user := u.id, action := ActionType.availabilityUpdated }] }
              { u with
                manualAvailability := some AvailabilityStatus.unavailable,
                availabilityHistory := u.availabilityHistory ++ [s.availabilityHistories.length],
                history := u.history ++ [s.userHistories.length] })
            { site with teams := site.teams.eraseUser u.id })
          { u with
            manualAvailability := some AvailabilityStatus.unavailable,
            kitchenId := none,
            availabilityHistory := u.availabilityHistory ++ [s.availabilityHistories.length],
            history := u.history ++ [s.userHistories.length] })
        (applyPreSave
          { u with
            manualAvailability := some AvailabilityStatus.unavailable,
            kitchenId := none,
            availabilityHistory := u.availabilityHistory ++ [s.availabilityHistories.length],
            history := u.history ++ [s.userHistories.length] })
        false reason "ManualUpdate", ?_, rfl, rfl, ⟨_, rfl, rfl⟩, ?_, ?_⟩
    · simp only [updateUserAvailability, hu, handleUserUnavailability, saveUser,
        saveKitchen, findShop, findKitchen, computedIsAvailable, hk, hs, hfk']
      rfl
    · refine ⟨applyPreSave { u with
          manualAvailability := some AvailabilityStatus.unavailable,
          kitchenId := none,
          availabilityHistory := u.availabilityHistory ++ [s.availabilityHistories.length],
          history := u.history ++ [s.userHistories.length] }, ?_, rfl, rfl, hs, rfl⟩
      exact findBy_replaceBy_self (fun v : UserRec => v.id)
        (replaceBy (fun v : UserRec => v.id) s.users
          (applyPreSave { u with
            manualAvailability := some AvailabilityStatus.unavailable,
            availabilityHistory := u.availabilityHistory ++ [s.availabilityHistories.length],
            history := u.history ++ [s.userHistories.length] }))
        (applyPreSave { u with
          manualAvailability := some AvailabilityStatus.unavailable,
          kitchenId := none,
          availabilityHistory := u.availabilityHistory ++ [s.availabilityHistories.length],
          history := u.history ++ [s.userHistories.length] })
        (applyPreSave { u with
          manualAvailability := some AvailabilityStatus.unavailable,
          availabilityHistory := u.availabilityHistory ++ [s.availabilityHistories.length],
          history := u.history ++ [s.userHistories.length] })
        (findBy_replaceBy_self (fun v : UserRec => v.id) s.users
          (applyPreSave { u with
            manualAvailability := some AvailabilityStatus.unavailable,
            availabilityHistory := u.availabilityHistory ++ [s.availabilityHistories.length],
            history := u.history ++ [s.userHistories.length] }) u hufind)
    · refine ⟨{ site with teams := site.teams.eraseUser u.id }, Or.inr ?_, ?_⟩
      · exact findBy_replaceBy_self (fun v : SiteRec => v.id) s.kitchens
          { site with teams := site.teams.eraseUser u.id } site hfk'
      · exact Teams.not_mem_eraseUser site.teams u.id hnd

def shopC6 : SiteRec :=
  { id := 10
    operatingShifts := [ShiftType.morning, ShiftType.afternoon]
    teams := { morning := [7], afternoon := [7, 9], night := [], both := [] }
    isDeleted := false }

def userC6 : UserRec :=
  { id := 7, manualAvailability := none, kitchenId := none, shopId := some 10,
    isAvailable := false, availabilityHistory := [], history := [] }

def storeC6 : Store :=
  { users := [userC6]
    kitchens := []
    shops := [shopC6]
    availabilityHistories := []
    userHistories := []
    notifications := [] }

/-- Witness for C6: user 7, holding Morning and Afternoon shifts at shop 10,
is marked manually unavailable; the committed result removes the user from
both rosters, clears the reference, and has exactly one history entry of
each kind and one notification. -/
theorem updateUserAvailability_unavailable_cascade_witness :
    ∃ s', updateUserAvailability storeC6 7 false (some "sick") = Except.ok s' ∧
      s'.availabilityHistories = storeC6.availabilityHistories ++
        [{ user := 7, status := AvailabilityStatus.unavailable,
           reason := reasonOr (some "sick") "Status updated by admin" }] ∧
      s'.userHistories = storeC6.userHistories ++
        [{ user := 7, action := ActionType.availabilityUpdated }] ∧
      (∃ n, s'.notifications = storeC6.notifications ++ [n] ∧ n.userId = 7) ∧
      (∃ v, findUser s' 7 = some v ∧
        v.manualAvailability = some AvailabilityStatus.unavailable ∧
        v.kitchenId = none ∧ v.shopId = none ∧ v.isAvailable = false) ∧
      (∃ site', (findShop s' 10 = some site' ∨ findKitchen s' 10 = some site') ∧
        ∀ shift, 7 ∉ site'.teams.get shift) :=
  updateUserAvailability_unavailable_cascade storeC6 7 (some "sick") userC6 10 shopC6
    rfl (Or.inl ⟨rfl, rfl, rfl⟩) (by intro shift; cases shift <;> decide)

theorem NoDupKeys.eq_of_key (f : α → Nat) (l : List α) (a b : α)
    (hnd : NoDupKeys f l) (ha : a ∈ l) (hb : b ∈ l) (h : f a = f b) : a = b := by
  have h1 := findBy_of_mem f l a hnd ha
  have h2 := findBy_of_mem f l b hnd hb
  rw [h] at h1
  rw [h1] at h2
  injection h2

theorem shopDeletionBatchUpdate_spec :
    ∀ (l : List UserRec) (s : Store),
    NoDupKeys (fun v => v.id) s.users →
    (l.map (fun u => u.id)).Nodup →
    (∀ u ∈ l, findBy (fun v : UserRec => v.id) s.users u.id = some u) →
    (shopDeletionBatchUpdate s l).notifications = s.notifications ∧
    (shopDeletionBatchUpdate s l).shops = s.shops ∧
    (shopDeletionBatchUpdate s l).kitchens = s.kitchens ∧
    (shopDeletionBatchUpdate s l).availabilityHistories.length =
      s.availabilityHistories.length + l.length ∧
    (shopDeletionBatchUpdate s l).userHistories.length =
      s.userHistories.length + l.length ∧
    NoDupKeys (fun v => v.id) (shopDeletionBatchUpdate s l).users ∧
    (∀ i, (∀ u ∈ l, u.id ≠ i) →
      findBy (fun v : UserRec => v.id) (shopDeletionBatchUpdate s l).users i =
        findBy (fun v : UserRec => v.id) s.users i) ∧
    (∀ u ∈ l, ∃ v, findBy (fun v : UserRec => v.id) (shopDeletionBatchUpdate s l).users u.id = some v ∧
      v.shopId = none ∧
      v.isAvailable = computedIsAvailable u.manualAvailability u.kitchenId none ∧
      v.manualAvailability = u.manualAvailability ∧ v.kitchenId = u.kitchenId) := by
  intro l
  induction l with
  | nil =>
    intro s hndU _ _
    exact ⟨rfl, rfl, rfl, rfl, rfl, hndU, fun i _ => rfl, fun u hu => absurd hu (by simp)⟩
  | cons u rest ih =>
    intro s hndU hndl hl
    simp only [List.map_cons, List.nodup_cons] at hndl
    have hufind : findBy (fun v : UserRec => v.id) s.users u.id = some u :=
      hl u (by simp)
    have hstep_users : (shopDeletionUnassignStep s u).users =
        replaceBy (fun v : UserRec => v.id) s.users
          (applyPreSave { u with
            shopId := none
            availabilityHistory := u.availabilityHistory ++ [s.availabilityHistories.length]
            history := u.history ++ [s.userHistories.length] }) := by
      rfl
    have hndS1 : NoDupKeys (fun v : UserRec => v.id) (shopDeletionUnassignStep s u).users := by
      rw [hstep_users]
      exact NoDupKeys.replaceBy _ _ _ hndU
    have hrest : ∀ u' ∈ rest,
        findBy (fun v : UserRec => v.id) (shopDeletionUnassignStep s u).users u'.id = some u' := by
      intro u' hu'
      rw [hstep_users, findBy_replaceBy_ne]
      · exact hl u' (by simp [hu'])
      · show u'.id ≠ u.id
        intro hc
        exact hndl.1 (hc ▸ List.mem_map_of_mem _ hu')
    obtain ⟨n2, sh2, k2, a2, h2, nd2, others2, mem2⟩ :=
      ih (shopDeletionUnassignStep s u) hndS1 hndl.2 hrest
    have hlen1 : (shopDeletionUnassignStep s u).availabilityHistories.length =
        s.availabilityHistories.length + 1 := by
      simp [shopDeletionUnassignStep, rawWriteUser]
    have hlen2 : (shopDeletionUnassignStep s u).userHistories.length =
        s.userHistories.length + 1 := by
      simp [shopDeletionUnassignStep, rawWriteUser]
    refine ⟨n2, sh2, k2, ?_, ?_, nd2, ?_, ?_⟩
    · show (shopDeletionBatchUpdate (shopDeletionUnassignStep s u) rest).availabilityHistories.length = _
      rw [a2, hlen1]
      simp only [List.length_cons]
      omega
    · show (shopDeletionBatchUpdate (shopDeletionUnassignStep s u) rest).userHistories.length = _
      rw [h2, hlen2]
      simp only [List.length_cons]
      omega
    · intro i hi
      show findBy _ (shopDeletionBatchUpdate (shopDeletionUnassignStep s u) rest).users i = _
      rw [others2 i (fun u' hu' => hi u' (List.mem_cons_of_mem _ hu'))]
      rw [hstep_users, findBy_replaceBy_ne]
      show i ≠ u.id
      exact fun hc => hi u (by simp) hc.symm
    · intro w hw
      rcases List.mem_cons.mp hw with rfl | hw'
      · refine ⟨applyPreSave { w with
            shopId := none
            availabilityHistory := w.availabilityHistory ++ [s.availabilityHistories.length]
            history := w.history ++ [s.userHistories.length] }, ?_, rfl, rfl, rfl, rfl⟩
        show findBy _ (shopDeletionBatchUpdate (shopDeletionUnassignStep s w) rest).users w.id = _
        rw [others2 w.id (fun u' hu' => fun hc => hndl.1 (hc ▸ List.mem_map_of_mem _ hu'))]
        rw [hstep_users]
        exact findBy_replaceBy_self (fun v : UserRec => v.id) s.users
          (applyPreSave { w with
            shopId := none
            availabilityHistory := w.availabilityHistory ++ [s.availabilityHistories.length]
            history := w.history ++ [s.userHistories.length] }) w hufind
      · exact mem2 w hw'

theorem shopDeletionBatchNotify_spec :
    ∀ (l : List UserRec) (s : Store),
    (shopDeletionBatchNotify s l).users = s.users ∧
    (shopDeletionBatchNotify s l).shops = s.shops ∧
    (shopDeletionBatchNotify s l).kitchens = s.kitchens ∧
    (shopDeletionBatchNotify s l).availabilityHistories = s.availabilityHistories ∧
    (shopDeletionBatchNotify s l).userHistories = s.userHistories ∧
    (shopDeletionBatchNotify s l).notifications.length =
      s.notifications.length + l.length := by
  intro l
  induction l with
  | nil => intro s; exact ⟨rfl, rfl, rfl, rfl, rfl, rfl⟩
  | cons u rest ih =>
    intro s
    obtain ⟨h1, h2, h3, h4, h5, h6⟩ := ih
      (sendAvailabilityNotification s { u with shopId := none } true
        (some "Unassigned due to shop deletion") "Assignment")
    refine ⟨h1, h2, h3, h4, h5, ?_⟩
    show (shopDeletionBatchNotify _ rest).notifications.length = _
    rw [h6]
    simp [sendAvailabilityNotification]
    omega

/-- Claim C7: soft-deleting a shop clears the shop reference of exactly the
users referencing it (recomputing their availability through the deriver),
creates one availability-history entry, one action-history entry and one
notification per affected user, leaves every other user untouched, and keeps
the shop in the store marked `isDeleted` — in one committed result. -/
theorem deleteShop_cascade
    (s : Store) (shopId : Nat) (shop : SiteRec)
    (hndU : NoDupKeys (fun v => v.id) s.users)
    (hfind : findShop s shopId = some shop) :
    ∃ s', deleteShop s shopId = Except.ok s' ∧
      s'.availabilityHistories.length = s.availabilityHistories.length +
        (s.users.filter (fun u => u.shopId = some shopId)).length ∧
      s'.userHistories.length = s.userHistories.length +
        (s.users.filter (fun u => u.shopId = some shopId)).length ∧
      s'.notifications.length = s.notifications.length +
        (s.users.filter (fun u => u.shopId = some shopId)).length ∧
      (∃ shop', findShop s' shopId = some shop' ∧ shop'.isDeleted = true) ∧
      (∀ u ∈ s.users, u.shopId = some shopId →
        ∃ v, findUser s' u.id = some v ∧ v.shopId = none ∧
          v.isAvailable = computedIsAvailable u.manualAvailability u.kitchenId none) ∧
      (∀ u ∈ s.users, u.shopId ≠ some shopId →
        findUser s' u.id = findUser s u.id) := by
  have hshopkey : shop.id = shopId := findBy_eq_key _ _ _ _ hfind
  subst hshopkey
  have hfind' : findBy (fun v : SiteRec => v.id) s.shops shop.id = some shop := hfind
  have hsub : (s.users.filter (fun u => u.shopId = some shop.id)).Sublist s.users :=
    List.filter_sublist s.users
  have hlnd : ((s.users.filter (fun u => u.shopId = some shop.id)).map
      (fun u : UserRec => u.id)).Nodup :=
    List.Nodup.sublist (List.Sublist.map (fun u : UserRec => u.id) hsub) hndU
  have hlmem : ∀ u ∈ s.users.filter (fun u => u.shopId = some shop.id),
      findBy (fun v : UserRec => v.id) s.users u.id = some u := by
    intro u hu
    exact findBy_of_mem _ _ _ hndU (List.mem_filter.mp hu).1
  obtain ⟨bn, bsh, bk, ba, bh, bnd, bothers, bmem⟩ :=
    shopDeletionBatchUpdate_spec (s.users.filter (fun u => u.shopId = some shop.id))
      s hndU hlnd hlmem
  obtain ⟨tu, tsh, tk, ta, th, tn⟩ :=
    shopDeletionBatchNotify_spec (s.users.filter (fun u => u.shopId = some shop.id))
      (shopDeletionBatchUpdate s (s.users.filter (fun u => u.shopId = some shop.id)))
  refine ⟨saveShop
      (unassignUsersFromShopBatch s (s.users.filter (fun u => u.shopId = some shop.id)))
      { shop with
        teams := shop.teams.filterAll
          (fun uid => !((s.users.filter (fun u => u.shopId = some shop.id)).any
            (fun u => u.id = uid)))
        isDeleted := true }, ?_, ?_, ?_, ?_, ?_, ?_, ?_⟩
  · simp only [deleteShop, hfind]
  · show (shopDeletionBatchNotify _ _).availabilityHistories.length = _
    rw [ta, ba]
  · show (shopDeletionBatchNotify _ _).userHistories.length = _
    rw [th, bh]
  · show (shopDeletionBatchNotify _ _).notifications.length = _
    rw [tn, bn]
  · refine ⟨{ shop with
        teams := shop.teams.filterAll
          (fun uid => !((s.users.filter (fun u => u.shopId = some shop.id)).any
            (fun u => u.id = uid)))
        isDeleted := true }, ?_, rfl⟩
    apply findBy_replaceBy_self (fun v : SiteRec => v.id) _ _ shop
    show findBy _ (shopDeletionBatchNotify _ _).shops _ = some shop
    rw [tsh, bsh]
    exact hfind'
  · intro u hu hushop
    have humem : u ∈ s.users.filter (fun u => u.shopId = some shop.id) := by
      simp only [List.mem_filter, decide_eq_true_eq]
      exact ⟨hu, hushop⟩
    obtain ⟨v, hv, hv1, hv2, hv3, hv4⟩ := bmem u humem
    refine ⟨v, ?_, hv1, hv2⟩
    show findBy _ (shopDeletionBatchNotify _ _).users u.id = some v
    rw [tu]
    exact hv
  · intro u hu hushop
    show findBy _ (shopDeletionBatchNotify _ _).users u.id = _
    rw [tu]
    apply bothers
    intro w hw hc
    have hwmem := (List.mem_filter.mp hw).1
    have hwshop := (List.mem_filter.mp hw).2
    have : w = u := NoDupKeys.eq_of_key (fun v : UserRec => v.id) s.users w u hndU hwmem hu hc
    subst this
    simp only [decide_eq_true_eq] at hwshop
    exact hushop hwshop

def shopC7 : SiteRec :=
  { id := 10
    operatingShifts := [ShiftType.morning, ShiftType.night]
    teams := { morning := [1, 2], afternoon := [], night := [3], both := [] }
    isDeleted := false }

def storeC7 : Store :=
  { users :=
      [{ id := 1, manualAvailability := none, kitchenId := none, shopId := some 10,
         isAvailable := false, availabilityHistory := [], history := [] },
       { id := 2, manualAvailability := none, kitchenId := none, shopId := some 10,
         isAvailable := false, availabilityHistory := [], history := [] },
       { id := 3, manualAvailability := some AvailabilityStatus.unavailable,
         kitchenId := none, shopId := some 10, isAvailable := false,
         availabilityHistory := [], history := [] },
       { id := 4, manualAvailability := none, kitchenId := none, shopId := none,
         isAvailable := true, availabilityHistory := [], history := [] }]
    kitchens := []
    shops := [shopC7]
    availabilityHistories := []
    userHistories := []
    notifications := [] }

/-- Witness for C7: deleting shop 10 with three referencing users yields
three history entries of each kind, three notifications, cleared references
with recomputed availability for users 1-3, an untouched user 4, and the
shop kept in the store with `isDeleted = true`. -/
theorem deleteShop_cascade_witness :
    ∃ s', deleteShop storeC7 10 = Except.ok s' ∧
      s'.availabilityHistories.length = storeC7.availabilityHistories.length +
        (storeC7.users.filter (fun u => u.shopId = some 10)).length ∧
      s'.userHistories.length = storeC7.userHistories.length +
        (storeC7.users.filter (fun u => u.shopId = some 10)).length ∧
      s'.notifications.length = storeC7.notifications.length +
        (storeC7.users.filter (fun u => u.shopId = some 10)).length ∧
      (∃ shop', findShop s' 10 = some shop' ∧ shop'.isDeleted = true) ∧
      (∀ u ∈ storeC7.users, u.shopId = some 10 →
        ∃ v, findUser s' u.id = some v ∧ v.shopId = none ∧
          v.isAvailable = computedIsAvailable u.manualAvailability u.kitchenId none) ∧
      (∀ u ∈ storeC7.users, u.shopId ≠ some 10 →
        findUser s' u.id = findUser storeC7 u.id) :=
  deleteShop_cascade storeC7 10 shopC7 (by decide) rfl

theorem find?_notif_first (l : List NotifRec) (n : NotifRec) (uid : Nat)
    (hnd : NoDupKeys (fun v => v.id) l) (hmem : n ∈ l) (huser : n.userId = uid) :
    l.find? (fun m => m.id = n.id && m.userId = uid) = some n := by
  induction l with
  | nil => simp at hmem
  | cons b rest ih =>
    simp only [NoDupKeys, List.map_cons, List.nodup_cons] at hnd
    rcases List.mem_cons.mp hmem with rfl | hmem'
    · simp [List.find?_cons, huser]
    · have hbne : b.id ≠ n.id := fun hc => hnd.1 (hc ▸ List.mem_map_of_mem _ hmem')
      rw [List.find?_cons]
      have hpred : (b.id = n.id && b.userId = uid) = false := by
        simp [hbne]
      rw [hpred]
      exact ih hnd.2 hmem'

/-- Claim C10: `markAsRead` marks a notification read only when its stored
user reference equals the caller; when the notification id exists but
belongs to a different user, the handler answers NotFound and the store is
returned unmodified; when it belongs to the caller, exactly that document is
updated to `isRead := true` and every other document is untouched. -/
theorem markAsRead_owner_scoped
    (s : Store) (nid uid : Nat) (n : NotifRec)
    (hnd : NoDupKeys (fun v => v.id) s.notifications)
    (hmem : n ∈ s.notifications) (hid : n.id = nid) :
    (n.userId ≠ uid →
      markAsRead s nid uid =
        (s, Except.error (ApiError.notFound "Notification not found"))) ∧
    (n.userId = uid →
      ∃ s', markAsRead s nid uid = (s', Except.ok { n with isRead := true }) ∧
        findBy (fun v => v.id) s'.notifications nid = some { n with isRead := true } ∧
        ∀ m ∈ s.notifications, m.id ≠ nid →
          findBy (fun v => v.id) s'.notifications m.id =
            findBy (fun v => v.id) s.notifications m.id) := by
  subst hid
  constructor
  · intro hne
    have hnone : s.notifications.find? (fun m => m.id = n.id && m.userId = uid) = none := by
      apply List.find?_eq_none.mpr
      intro m hm
      simp only [Bool.and_eq_true, decide_eq_true_eq, not_and]
      intro hmid
      have hmn : m = n := NoDupKeys.eq_of_key _ _ m n hnd hm hmem hmid
      rw [hmn]
      exact hne
    simp only [markAsRead, hnone]
  · intro huser
    have hfound := find?_notif_first s.notifications n uid hnd hmem huser
    refine ⟨{ s with notifications := replaceBy (fun v => v.id) s.notifications { n with isRead := true } }, ?_, ?_, ?_⟩
    · simp only [markAsRead, hfound]
    · have hbase : findBy (fun v : NotifRec => v.id) s.notifications n.id = some n :=
        findBy_of_mem _ _ _ hnd hmem
      exact findBy_replaceBy_self (fun v : NotifRec => v.id) s.notifications
        { n with isRead := true } n hbase
    · intro m hm hmne
      exact findBy_replaceBy_ne (fun v : NotifRec => v.id) s.notifications
        { n with isRead := true } m.id hmne

def storeC10 : Store :=
  { users := []
    kitchens := []
    shops := []
    availabilityHistories := []
    userHistories := []
    notifications :=
      [{ id := 0, userId := 9, message := "shift change", isRead := false },
       { id := 1, userId := 7, message := "roster update", isRead := false }] }

/-- Witness for C10: notification 0 belongs to user 9; caller 7 gets
NotFound with the store unchanged, while caller 9 would get it marked read. -/
theorem markAsRead_owner_scoped_witness :
    (((storeC10.notifications.head?).map (fun n => n.userId) = some 9) ∧
      markAsRead storeC10 0 7 =
        (storeC10, Except.error (ApiError.notFound "Notification not found"))) :=
  ⟨rfl,
    (markAsRead_owner_scoped storeC10 0 7
      { id := 0, userId := 9, message := "shift change", isRead := false }
      (by decide) (by simp [storeC10]) rfl).1 (by decide)⟩
